import Mathlib

/-!
Verification of the `CentralScheduler` core (`src/central_scheduler.py`)
against its natural-language specification.

The Python class is shallowly embedded: its mutable attribute dictionaries
become fields of a `Sched` record, each method body becomes a pure
transition function on `Sched`, and the interleaving of the ingress
threads, the submission worker and the endpoint watchdog becomes a step
relation `Step` together with its reachable-state predicate `Reachable`.

Modelling conventions:
* task ids, real (service-assigned) task ids, function ids, endpoint ids,
  package names, payloads and headers are natural numbers (they are opaque
  identifiers in the source);
* wall-clock instants and durations (Python floats from `time.time()`)
  are rationals; every `time.time()` read and every value coming from an
  injected external collaborator (strategy ETA, transfer handle, runtime
  predictor verdict, executor response) is a parameter of the transition
  that consumes it;
* Python dicts keyed by ids become functions into `Option`, defaultdicts
  become total functions with the corresponding default, Python sets
  become `Finset`, and `self._pending` (which the source also iterates)
  becomes an association list;
* fields of the source that no frozen claim depends on are omitted from
  `Sched`: `_transfer_ETAs`, `last_result_time`, `_imports`,
  `_imports_required`, `execution_log`, and the predictor/strategy/
  transfer objects themselves (the latter are external collaborators per
  the spec and enter only as transition parameters).
-/

namespace Scheduler

abbrev EndpointId := Nat
abbrev TaskId := Nat
abbrev RealId := Nat
abbrev FuncId := Nat
abbrev Pkg := Nat

/-- Endpoint temperature, `self.temperature` values `'COLD' | 'WARMING' | 'WARM'`. -/
inductive Temp where
  | COLD
  | WARMING
  | WARM
deriving DecidableEq, Repr

/-! ### `cold_start` (lines 331-351)

`cold_start` reads only `self.temperature`, `self._endpoints[e]['launch_time']`,
`self._imports_required`, `self._imports` and `self.import_predictor`; we
package those five read-only inputs into `ColdStartEnv`. -/

/-- The slice of scheduler state read by `cold_start`. -/
structure ColdStartEnv where
  temperature : EndpointId → Temp
  /-- `self._endpoints[e]['launch_time']`; `none` when the key is absent. -/
  launchTime : EndpointId → Option ℚ
  /-- `self._imports_required[func]` (a `defaultdict(list)`). -/
  importsRequired : FuncId → List Pkg
  /-- `self._imports[endpoint]` (a `defaultdict(list)`), learned from results. -/
  importsPresent : EndpointId → List Pkg
  /-- the injected `ImportPredictor`, `self.import_predictor(pkg, endpoint)`. -/
  importPredictor : Pkg → EndpointId → ℚ

/-- `CentralScheduler.cold_start(endpoint, func)`, lines 331-351.
The launch-time component is 0 unless the endpoint is COLD; the
per-package import-time loop runs unconditionally. -/
def cold_start (env : ColdStartEnv) (endpoint : EndpointId) (func : FuncId) : ℚ :=
  let launchTime : ℚ :=
    if env.temperature endpoint ≠ Temp.COLD then 0
    else match env.launchTime endpoint with
      | some t => t
      | none => 0
  let importTime : ℚ :=
    (env.importsRequired func).foldl
      (fun acc pkg =>
        if pkg ∈ env.importsPresent endpoint then acc
        else acc + env.importPredictor pkg endpoint) 0
  launchTime + importTime

/-- The spec's import-time sum
`Σ_{pkg ∈ imports_required[func] \ imports_present[endpoint]} import_predictor(pkg, endpoint)`
(summed over the registered list, which may contain repeats). -/
def importTimeSum (env : ColdStartEnv) (endpoint : EndpointId) (func : FuncId) : ℚ :=
  (((env.importsRequired func).filter (fun pkg => pkg ∉ env.importsPresent endpoint)).map
    (fun pkg => env.importPredictor pkg endpoint)).sum

lemma coldStart_foldl_eq (present : List Pkg) (pred : Pkg → ℚ) :
    ∀ (l : List Pkg) (acc : ℚ),
      l.foldl (fun acc pkg => if pkg ∈ present then acc else acc + pred pkg) acc
        = acc + ((l.filter (fun pkg => pkg ∉ present)).map pred).sum := by
  intro l
  induction l with
  | nil => intro acc; simp
  | cons hd tl ih =>
    intro acc
    by_cases h : hd ∈ present
    · simp [List.filter_cons, h, ih]
    · simp [List.filter_cons, h, ih, add_assoc]

/-- A concrete environment on which the claimed "warm implies zero" law fails:
the endpoint is WARM, the function requires package `7`, which the endpoint
has not imported, and whose predicted import time is `5`. -/
def warmEnv : ColdStartEnv where
  temperature := fun _ => Temp.WARM
  launchTime := fun _ => none
  importsRequired := fun _ => [7]
  importsPresent := fun _ => []
  importPredictor := fun _ _ => 5

/-! ### The scheduler state and its transitions -/

/-- `self._task_info[task_id]`, recorded on first schedule (lines 182-189). -/
structure TaskInfo where
  function_id : FuncId
  payload : Nat
  headers : Nat
  files : List Nat
  time_requested : ℚ
deriving DecidableEq, Repr

/-- `self._pending[real_task_id]`: the fields of the scheduled-record copy
that survive to submission and are read afterwards (lines 371-374, 422-445).
`transfer_time` and `runtime` are never read by the code under claim and are
omitted. -/
structure PendingInfo where
  task_id : TaskId
  function_id : FuncId
  endpoint_id : EndpointId
  ETA : ℚ
  time_sent : ℚ
  is_ETA_reliable : Bool
deriving DecidableEq, Repr

/-- A status message `data` as passed to `log_status` (lines 236-280): whether
it has a `result` key, an `exception` key, its `data.get('status')`, an opaque
body, and — for exceptions — whether the deserialized exception type is in
`BLOCK_ERRORS` (`ModuleNotFoundError`/`MemoryError`, line 270). -/
structure StatusData where
  hasResult : Bool
  hasException : Bool
  statusField : Option String
  body : Nat
  blockError : Bool
deriving DecidableEq, Repr

/-- The literal `\x7b'status': 'PENDING'\x7d` dict returned by `get_status`. -/
def pendingStatus : StatusData :=
  { hasResult := false, hasException := false
    statusField := some "PENDING", body := 0, blockError := false }

/-- The mutable state of a `CentralScheduler` (constructor, lines 35-121),
restricted to the fields the frozen claims depend on.  The worker-local
`scheduled` staging dict and the `self._scheduled_tasks` queue are collapsed
into the single list `scheduledQueue` of `(task_id, endpoint, transfer_num)`
records waiting to be submitted. -/
structure Sched where
  /-- keys of `self._endpoints` (immutable after construction). -/
  endpoints : Finset EndpointId
  /-- `self.max_backups`. -/
  maxBackups : Nat
  /-- `self.temperature`, a `defaultdict` with default `'WARM'`. -/
  temperature : EndpointId → Temp
  /-- `self._dead_endpoints`. -/
  deadEndpoints : Finset EndpointId
  /-- `self._blocked`, a `defaultdict(set)`. -/
  blocked : FuncId → Finset EndpointId
  /-- `self._task_id_translation` (a plain dict: `none` = key absent). -/
  taskIdTranslation : TaskId → Option (Finset RealId)
  /-- `self._pending`, keyed by real task id. -/
  pending : List (RealId × PendingInfo)
  /-- `self._pending_by_endpoint`, a `defaultdict(set)`. -/
  pendingByEndpoint : EndpointId → Finset RealId
  /-- `self._task_info` (a plain dict). -/
  taskInfo : TaskId → Option TaskInfo
  /-- `self._endpoints_sent_to`, a `defaultdict(list)`. -/
  endpointsSentTo : TaskId → List EndpointId
  /-- `self._latest_status` (a plain dict). -/
  latestStatus : TaskId → Option StatusData
  /-- `self._last_task_ETA`, a `defaultdict(float)`. -/
  lastTaskETA : EndpointId → ℚ
  /-- `self._queue_error`, a `defaultdict(float)`. -/
  queueError : EndpointId → ℚ
  /-- scheduled-but-not-yet-submitted dispatch records. -/
  scheduledQueue : List (TaskId × EndpointId × Option Nat)

/-- The state right after the constructor returns: every dict empty, every
defaultdict at its default (`'WARM'`, `0.0`, empty set / list). -/
def initState (endpoints : Finset EndpointId) (maxBackups : Nat) : Sched where
  endpoints := endpoints
  maxBackups := maxBackups
  temperature := fun _ => Temp.WARM
  deadEndpoints := ∅
  blocked := fun _ => ∅
  taskIdTranslation := fun _ => none
  pending := []
  pendingByEndpoint := fun _ => ∅
  taskInfo := fun _ => none
  endpointsSentTo := fun _ => []
  latestStatus := fun _ => none
  lastTaskETA := fun _ => 0
  queueError := fun _ => 0
  scheduledQueue := []

/-- Dict lookup in `self._pending`. -/
def plookup (l : List (RealId × PendingInfo)) (r : RealId) : Option PendingInfo :=
  (l.find? (fun p => p.1 == r)).map (fun p => p.2)

lemma plookup_mem {l : List (RealId × PendingInfo)} {r : RealId} {i : PendingInfo}
    (h : plookup l r = some i) : (r, i) ∈ l := by
  unfold plookup at h
  cases hf : l.find? (fun p => p.1 == r) with
  | none => rw [hf] at h; simp at h
  | some p =>
    rw [hf] at h
    have hp1 : p.1 = r := by
      have := List.find?_some hf
      simpa using this
    have hpl : p ∈ l := List.mem_of_find?_eq_some hf
    have hp2 : p.2 = i := by simpa using h
    have : p = (r, i) := by
      cases p; simp_all
    rwa [this] at hpl

/-! #### `_schedule_task` (lines 169-231)

The strategy choice, the predicted ETA and the transfer handle come from
injected collaborators and are parameters of the transition. -/

/-- Lines 214-218: for a task with no files, `last_task_ETA[endpoint]` is set
eagerly at schedule time, before the task is submitted. -/
def eagerETA (s : Sched) (files : List Nat) (endpoint : EndpointId) (eta : ℚ) : Sched :=
  if files = [] then
    { s with lastTaskETA := Function.update s.lastTaskETA endpoint eta }
  else s

/-- Lines 222-223: a COLD endpoint that is chosen becomes WARMING. -/
def warmUp (s : Sched) (endpoint : EndpointId) : Sched :=
  if s.temperature endpoint = Temp.COLD then
    { s with temperature := Function.update s.temperature endpoint Temp.WARMING }
  else s

/-- Lines 228-229: append to `_endpoints_sent_to[task_id]` and enqueue the
dispatch record. -/
def pushTask (s : Sched) (t : TaskId) (endpoint : EndpointId) (tn : Option Nat) : Sched :=
  { s with
    endpointsSentTo :=
      Function.update s.endpointsSentTo t (s.endpointsSentTo t ++ [endpoint])
    scheduledQueue := s.scheduledQueue ++ [(t, endpoint, tn)] }

/-- The tail of `_schedule_task` shared by first schedules and backups
(lines 207-229).  When `files` is empty the code sets `transfer_num = None`
and records the eager ETA; otherwise the transfer handle `tn` comes from the
transfer manager. -/
def scheduleCommonF (s : Sched) (t : TaskId) (files : List Nat)
    (endpoint : EndpointId) (eta : ℚ) (tn : Option Nat) : Sched :=
  pushTask (warmUp (eagerETA s files endpoint eta) endpoint) t endpoint
    (if files = [] then none else tn)

/-- `_schedule_task` with `task_id = None` (lines 174-189 then 191-229):
mint the client id `t`, initialise its translation entry and task info, then
run the shared tail. -/
def scheduleNewF (s : Sched) (t : TaskId) (func : FuncId) (payload headers : Nat)
    (files : List Nat) (endpoint : EndpointId) (eta now : ℚ) (tn : Option Nat) : Sched :=
  scheduleCommonF
    { s with
      taskIdTranslation := Function.update s.taskIdTranslation t (some ∅)
      taskInfo := Function.update s.taskInfo t
        (some { function_id := func, payload := payload, headers := headers
                files := files, time_requested := now }) }
    t files endpoint eta tn

/-- `_schedule_task` re-invoked with an existing `task_id` from
`_send_backups_if_needed` (lines 530-533): function, payload, headers and
files are taken from `self._task_info[task_id]`. -/
def scheduleBackupF (s : Sched) (t : TaskId) (info : TaskInfo)
    (endpoint : EndpointId) (eta : ℚ) (tn : Option Nat) : Sched :=
  scheduleCommonF s t info.files endpoint eta tn

/-- One task's per-`task_uuid` bookkeeping on a successful `/submit`
(lines 423-453): register the real id, add it to the pending maps, stamp the
freshly recomputed ETA, and drop the record from the staging map. -/
def submitF (s : Sched) (t : TaskId) (info : TaskInfo) (endpoint : EndpointId)
    (tn : Option Nat) (r : RealId) (eta now : ℚ) (reliable : Bool) : Sched :=
  { s with
    scheduledQueue := s.scheduledQueue.erase (t, endpoint, tn)
    taskIdTranslation :=
      Function.update s.taskIdTranslation t
        ((s.taskIdTranslation t).map (fun realIds => insert r realIds))
    pending := s.pending ++
      [(r, { task_id := t, function_id := info.function_id, endpoint_id := endpoint
             ETA := eta, time_sent := now, is_ETA_reliable := reliable })]
    pendingByEndpoint :=
      Function.update s.pendingByEndpoint endpoint (insert r (s.pendingByEndpoint endpoint))
    lastTaskETA := Function.update s.lastTaskETA endpoint eta }

/-- Lines 366-369: a drained record whose task id has no `_task_info` entry is
warned about and discarded. -/
def dropF (s : Sched) (t : TaskId) (endpoint : EndpointId) (tn : Option Nat) : Sched :=
  { s with scheduledQueue := s.scheduledQueue.erase (t, endpoint, tn) }

/-- Whether an existing `_latest_status` entry blocks overwriting: present and
not PENDING (negation of the condition on lines 245-246). -/
def isTerminal (o : Option StatusData) : Bool :=
  match o with
  | none => false
  | some d => !(d.statusField == some "PENDING")

/-- The sticky-status write of `log_status` (lines 244-247): overwrite
`_latest_status[task_id]` only when absent or currently PENDING. -/
def stickyF (s : Sched) (t : TaskId) (d : StatusData) : Sched :=
  if isTerminal (s.latestStatus t) then s
  else { s with latestStatus := Function.update s.latestStatus t (some d) }

/-- `block(func, endpoint)` (lines 123-142).  Returns the new state and the
`status` string of the returned dict. -/
def blockF (s : Sched) (func : FuncId) (endpoint : EndpointId) : Sched × String :=
  if endpoint ∉ s.endpoints then (s, "Failed")
  else if (s.blocked func).card = s.endpoints.card - 1 then (s, "Failed")
  else
    ({ s with blocked := Function.update s.blocked func (insert endpoint (s.blocked func)) },
     "Success")

/-- `_record_completed(real_task_id)` (lines 303-329). -/
def recordCompletedF (s : Sched) (r : RealId) (now : ℚ) : Sched :=
  match plookup s.pending r with
  | none => s
  | some info =>
    let e := info.endpoint_id
    let s1 :=
      if (s.pendingByEndpoint e).card = 1 then
        { s with
          lastTaskETA := Function.update s.lastTaskETA e 0
          queueError := Function.update s.queueError e 0 }
      else
        { s with queueError := Function.update s.queueError e (now - info.ETA) }
    { s1 with
      pending := s1.pending.filter (fun p => p.1 != r)
      pendingByEndpoint :=
        Function.update s1.pendingByEndpoint e ((s1.pendingByEndpoint e).erase r)
      taskInfo := Function.update s1.taskInfo info.task_id none }

/-- `log_status(real_task_id, data)` for a known real id (lines 241-280):
the sticky write, then the `result` / `exception` / `PENDING` / other cases.
`info` is `self._pending[real_task_id]`; predictor updates, `last_result_time`
and `_imports` writes are omitted (no claim reads them). -/
def logStatusF (s : Sched) (r : RealId) (info : PendingInfo) (d : StatusData)
    (now : ℚ) : Sched :=
  let s1 := stickyF s info.task_id d
  if d.hasResult then recordCompletedF s1 r now
  else if d.hasException then
    recordCompletedF
      (if d.blockError then (blockF s1 info.function_id info.endpoint_id).1 else s1) r now
  else s1

/-- `get_status(task_id)` (lines 282-293).  The unknown-id branch only warns
and falls off the function, i.e. returns `None`. -/
def get_status (s : Sched) (task_id : TaskId) : Option StatusData :=
  match s.taskIdTranslation task_id with
  | none => none
  | some realIds =>
    if realIds = ∅ then some pendingStatus
    else
      match s.latestStatus task_id with
      | none => some pendingStatus
      | some d => some d

/-! #### `_send_backups_if_needed` (lines 503-533) -/

/-- The delay criterion applied to one pending record (lines 515-524):
skip if the ETA was unreliable, else compare `elapsed / expected` with
`self.backup_delay_threshold`. -/
def delayCriterion (info : PendingInfo) (now threshold : ℚ) : Bool :=
  info.is_ETA_reliable &&
    decide (threshold < (now - info.time_sent) / (info.ETA - info.time_sent))

/-- Task ids collected by the delay loop (lines 515-524).  Note: no membership
check against `self._task_info` here, unlike the dead-endpoint comprehension. -/
def delayCandidates (s : Sched) (now threshold : ℚ) : List TaskId :=
  (s.pending.filter (fun p => delayCriterion p.2 now threshold)).map
    (fun p => p.2.task_id)

/-- Task ids collected by the dead-endpoint comprehension (lines 506-511),
which does filter on `task_id ∈ self._task_info`. -/
def deadCandidates (s : Sched) : List TaskId :=
  ((s.deadEndpoints.biUnion s.pendingByEndpoint).sort (fun a b => a ≤ b)).filterMap
    (fun r =>
      match plookup s.pending r with
      | some info => if (s.taskInfo info.task_id).isSome then some info.task_id else none
      | none => none)

/-- All task ids the backup evaluator will iterate over. -/
def backupCandidates (s : Sched) (now threshold : ℚ) : List TaskId :=
  deadCandidates s ++ delayCandidates s now threshold

/-! #### The interleaving semantics

One constructor per atomic state mutation the threads can perform.  Values
produced by external collaborators — the strategy's choice and predicted ETA,
transfer handles, the runtime predictor's `has_learned` verdict, executor
status messages, heartbeat ages, `time.time()` — are universally quantified
parameters.  Hypotheses on a constructor record either a guard the code
itself checks, or a contract of an external collaborator:
* `uuid.uuid4()` never collides with an existing client id or real id;
* `strategy.choose_endpoint(..., exclude, ...)` respects its exclusion set
  (spec 6: the strategy port takes an exclusion set);
* predicted ETAs are positive, being absolute wall-clock instants
  (spec 6: the scheduler interprets `predict_ETA` as an absolute finish
  time, and `time.time()` is positive). -/

inductive Step : Sched → Sched → Prop where
  /-- `_schedule_task` from `batch_submit` (`task_id = None`). -/
  | scheduleNew (s : Sched) (t : TaskId) (func : FuncId) (payload headers : Nat)
      (files : List Nat) (endpoint : EndpointId) (eta now : ℚ) (tn : Option Nat)
      (hfresh : s.taskIdTranslation t = none)
      (hnotBlocked : endpoint ∉ s.blocked func)
      (hnotSent : endpoint ∉ s.endpointsSentTo t)
      (hpos : 0 < eta) :
      Step s (scheduleNewF s t func payload headers files endpoint eta now tn)
  /-- `_schedule_task` re-invoked by `_send_backups_if_needed`
      (lines 526-533): only for a collected candidate, only when
      `len(endpoints_sent_to[task_id]) ≤ max_backups`, with info looked up in
      `_task_info`. -/
  | scheduleBackup (s : Sched) (t : TaskId) (info : TaskInfo) (endpoint : EndpointId)
      (eta now threshold : ℚ) (tn : Option Nat)
      (hcand : t ∈ backupCandidates s now threshold)
      (hguard : (s.endpointsSentTo t).length ≤ s.maxBackups)
      (hinfo : s.taskInfo t = some info)
      (hnotBlocked : endpoint ∉ s.blocked info.function_id)
      (hnotSent : endpoint ∉ s.endpointsSentTo t)
      (hpos : 0 < eta) :
      Step s (scheduleBackupF s t info endpoint eta tn)
  /-- one ready task of a successful batched `/submit` (lines 423-453). -/
  | submit (s : Sched) (t : TaskId) (info : TaskInfo) (endpoint : EndpointId)
      (tn : Option Nat) (r : RealId) (eta now : ℚ) (reliable : Bool)
      (realIds : Finset RealId)
      (hq : (t, endpoint, tn) ∈ s.scheduledQueue)
      (hinfo : s.taskInfo t = some info)
      (htrans : s.taskIdTranslation t = some realIds)
      (hfresh : plookup s.pending r = none)
      (hpos : 0 < eta) :
      Step s (submitF s t info endpoint tn r eta now reliable)
  /-- a drained record whose task info is gone is discarded (lines 366-369). -/
  | dropScheduled (s : Sched) (t : TaskId) (endpoint : EndpointId) (tn : Option Nat)
      (hq : (t, endpoint, tn) ∈ s.scheduledQueue)
      (hnoInfo : s.taskInfo t = none) :
      Step s (dropF s t endpoint tn)
  /-- `log_status` for a known real id (unknown ids are dropped, line 237). -/
  | logStatus (s : Sched) (r : RealId) (info : PendingInfo) (d : StatusData) (now : ℚ)
      (hpend : plookup s.pending r = some info) :
      Step s (logStatusF s r info d now)
  /-- a client-facing `block` call. -/
  | blockCall (s : Sched) (func : FuncId) (endpoint : EndpointId) :
      Step s (blockF s func endpoint).1
  /-- endpoint watchdog: heartbeat too old (lines 473-477). -/
  | markDead (s : Sched) (e : EndpointId) (he : e ∈ s.endpoints) :
      Step s { s with deadEndpoints := insert e s.deadEndpoints }
  /-- endpoint watchdog: heartbeat fresh again (lines 478-482). -/
  | markAlive (s : Sched) (e : EndpointId) :
      Step s { s with deadEndpoints := s.deadEndpoints.erase e }
  /-- endpoint watchdog: no active managers (lines 486-490). -/
  | setCold (s : Sched) (e : EndpointId) (h : s.temperature e = Temp.WARM) :
      Step s { s with temperature := Function.update s.temperature e Temp.COLD }
  /-- endpoint watchdog: active managers present (lines 491-495). -/
  | setWarm (s : Sched) (e : EndpointId) (h : s.temperature e ≠ Temp.WARM) :
      Step s { s with temperature := Function.update s.temperature e Temp.WARM }

/-- States reachable from some freshly constructed scheduler. -/
inductive Reachable : Sched → Prop where
  | init (endpoints : Finset EndpointId) (maxBackups : Nat) :
      Reachable (initState endpoints maxBackups)
  | step {s s2 : Sched} : Reachable s → Step s s2 → Reachable s2

/-- Zero or more steps. -/
inductive StepStar : Sched → Sched → Prop where
  | refl (s : Sched) : StepStar s s
  | tail {s s2 s3 : Sched} : StepStar s s2 → Step s2 s3 → StepStar s s3

/-! #### The submission worker's HTTP phase (`_monitor_tasks`, lines 396-453)

For claim C8 we embed the submit phase of one worker tick explicitly,
including the worker-local `scheduled` dict, the POST response and the
success-path bookkeeping. -/

/-- An entry of the worker-local `scheduled` dict: the copy of task info
made on drain (lines 370-374) plus the fields added before submission. -/
structure WorkerRec where
  function_id : FuncId
  payload : Nat
  headers : Nat
  files : List Nat
  time_requested : ℚ
  endpoint_id : EndpointId
  transfer_num : Option Nat
  transfer_time : ℚ
deriving DecidableEq, Repr

/-- A parsed JSON response of `POST /submit`. -/
structure SubmitResponse where
  status : String
  task_uuids : List RealId
deriving DecidableEq, Repr

/-- Dict lookup in the worker's `scheduled` map. -/
def wlookup (l : List (TaskId × WorkerRec)) (t : TaskId) : Option WorkerRec :=
  (l.find? (fun p => p.1 == t)).map (fun p => p.2)

/-- The per-`task_uuid` update of the success path (lines 423-449), acting on
the shared scheduler state. -/
def submitSuccessOne (scheduled : List (TaskId × WorkerRec)) (now : ℚ)
    (etaOf : TaskId → ℚ) (reliableOf : TaskId → Bool)
    (s : Sched) (tr : TaskId × RealId) : Sched :=
  match wlookup scheduled tr.1 with
  | none => s
  | some rec =>
    { s with
      taskIdTranslation :=
        Function.update s.taskIdTranslation tr.1
          ((s.taskIdTranslation tr.1).map (fun realIds => insert tr.2 realIds))
      pending := s.pending ++
        [(tr.2, { task_id := tr.1, function_id := rec.function_id
                  endpoint_id := rec.endpoint_id, ETA := etaOf tr.1
                  time_sent := now, is_ETA_reliable := reliableOf tr.1 })]
      pendingByEndpoint :=
        Function.update s.pendingByEndpoint rec.endpoint_id
          (insert tr.2 (s.pendingByEndpoint rec.endpoint_id))
      lastTaskETA := Function.update s.lastTaskETA rec.endpoint_id (etaOf tr.1) }

/-- Lines 410-453: the POST and everything after it, in one worker tick.
`ready` is `ready_to_send` (computed on lines 378-390, before the POST);
`resp = none` models a response whose body is not JSON (`ValueError` on
line 414); `etaOf` / `reliableOf` are the strategy's `predict_ETA` and the
runtime predictor's `has_learned` as called on lines 427-434.  Returns the
updated shared state and the worker's `scheduled` dict after the tick. -/
def submitTick (s : Sched) (scheduled : List (TaskId × WorkerRec))
    (ready : List TaskId) (resp : Option SubmitResponse)
    (etaOf : TaskId → ℚ) (reliableOf : TaskId → Bool) (now : ℚ) :
    Sched × List (TaskId × WorkerRec) :=
  match resp with
  | none => (s, scheduled)
  | some res =>
    if res.status ≠ "Success" then (s, scheduled)
    else
      ((ready.zip res.task_uuids).foldl
          (submitSuccessOne scheduled now etaOf reliableOf) s,
        scheduled.filter (fun p => p.1 ∉ ready))

/-! ### State invariants

`Invariants` bundles the facts that hold in every reachable state and are
needed by the claims: the `pending` / `pending_by_endpoint` synchronisation,
positivity of recorded ETAs on busy endpoints, the discipline of
`_endpoints_sent_to`, and the block-set bounds. -/

lemma scheduleCommonF_eq (s : Sched) (t : TaskId) (files : List Nat)
    (endpoint : EndpointId) (eta : ℚ) (tn : Option Nat) :
    scheduleCommonF s t files endpoint eta tn =
      { s with
        lastTaskETA :=
          if files = [] then Function.update s.lastTaskETA endpoint eta
          else s.lastTaskETA
        temperature :=
          if s.temperature endpoint = Temp.COLD then
            Function.update s.temperature endpoint Temp.WARMING
          else s.temperature
        endpointsSentTo :=
          Function.update s.endpointsSentTo t (s.endpointsSentTo t ++ [endpoint])
        scheduledQueue :=
          s.scheduledQueue ++ [(t, endpoint, if files = [] then none else tn)] } := by
  unfold scheduleCommonF pushTask warmUp eagerETA
  by_cases hf : files = [] <;> by_cases ht : s.temperature endpoint = Temp.COLD <;>
    simp [hf, ht]

/-- The invariants of the scheduler state used by the claims. -/
structure Invariants (s : Sched) : Prop where
  /-- (I1) every pending real id is registered on its endpoint. -/
  pendSync : ∀ p ∈ s.pending, p.1 ∈ s.pendingByEndpoint p.2.endpoint_id
  /-- a busy endpoint has a positive recorded `last_task_ETA`. -/
  etaPos : ∀ e, (s.pendingByEndpoint e).Nonempty → 0 < s.lastTaskETA e
  /-- a task id outside the translation registry was never dispatched. -/
  freshEmpty : ∀ t, s.taskIdTranslation t = none → s.endpointsSentTo t = []
  /-- `_endpoints_sent_to` never exceeds `max_backups + 1` entries. -/
  sentLen : ∀ t, (s.endpointsSentTo t).length ≤ s.maxBackups + 1
  /-- (I4) `_endpoints_sent_to` has no duplicates. -/
  sentNodup : ∀ t, (s.endpointsSentTo t).Nodup
  /-- a task id with task info is in the translation registry. -/
  infoTrans : ∀ t, (s.taskInfo t).isSome → (s.taskIdTranslation t).isSome
  /-- blocked endpoints are known endpoints. -/
  blockedSub : ∀ f, s.blocked f ⊆ s.endpoints
  /-- (I3) a function never has all endpoints blocked. -/
  blockedCard : ∀ f, s.endpoints.Nonempty → (s.blocked f).card < s.endpoints.card

lemma invariants_init (endpoints : Finset EndpointId) (maxBackups : Nat) :
    Invariants (initState endpoints maxBackups) := by
  refine ⟨?_, ?_, ?_, ?_, ?_, ?_, ?_, ?_⟩ <;>
    simp [initState, Finset.card_pos]

/-- Transitions that leave the claim-relevant fields untouched preserve the
invariants. -/
lemma invariants_congr {s : Sched} (h : Invariants s) (s2 : Sched)
    (hp : s2.pending = s.pending)
    (hpe : s2.pendingByEndpoint = s.pendingByEndpoint)
    (heta : s2.lastTaskETA = s.lastTaskETA)
    (htr : s2.taskIdTranslation = s.taskIdTranslation)
    (hti : s2.taskInfo = s.taskInfo)
    (hst : s2.endpointsSentTo = s.endpointsSentTo)
    (hb : s2.blocked = s.blocked)
    (he : s2.endpoints = s.endpoints)
    (hm : s2.maxBackups = s.maxBackups) : Invariants s2 := by
  refine ⟨?_, ?_, ?_, ?_, ?_, ?_, ?_, ?_⟩
  · rw [hp, hpe]; exact h.pendSync
  · rw [hpe, heta]; exact h.etaPos
  · rw [htr, hst]; exact h.freshEmpty
  · rw [hst, hm]; exact h.sentLen
  · rw [hst]; exact h.sentNodup
  · rw [hti, htr]; exact h.infoTrans
  · rw [hb, he]; exact h.blockedSub
  · rw [hb, he]; exact h.blockedCard

lemma invariants_stickyF {s : Sched} (h : Invariants s) (t : TaskId) (d : StatusData) :
    Invariants (stickyF s t d) := by
  unfold stickyF
  split_ifs with hterm
  · exact h
  · exact invariants_congr h _ rfl rfl rfl rfl rfl rfl rfl rfl rfl

lemma invariants_dropF {s : Sched} (h : Invariants s) (t : TaskId)
    (endpoint : EndpointId) (tn : Option Nat) :
    Invariants (dropF s t endpoint tn) :=
  invariants_congr h _ rfl rfl rfl rfl rfl rfl rfl rfl rfl

lemma invariants_blockF {s : Sched} (h : Invariants s) (func : FuncId)
    (endpoint : EndpointId) : Invariants (blockF s func endpoint).1 := by
  unfold blockF
  by_cases hunk : endpoint ∉ s.endpoints
  · rw [if_pos hunk]; exact h
  · rw [if_neg hunk]
    by_cases hlast : (s.blocked func).card = s.endpoints.card - 1
    · rw [if_pos hlast]; exact h
    · rw [if_neg hlast]
      dsimp only
      have hmem : endpoint ∈ s.endpoints := not_not.mp hunk
      refine ⟨h.pendSync, h.etaPos, h.freshEmpty, h.sentLen, h.sentNodup, h.infoTrans, ?_, ?_⟩
      · intro f
        by_cases hf : f = func
        · subst hf
          simp only [Function.update_same]
          intro x hx
          rcases Finset.mem_insert.mp hx with hx | hx
          · subst hx; exact hmem
          · exact h.blockedSub f hx
        · simp only [Function.update_noteq hf]
          exact h.blockedSub f
      · intro f hne
        by_cases hf : f = func
        · subst hf
          simp only [Function.update_same]
          have hlt : (s.blocked f).card < s.endpoints.card := h.blockedCard f hne
          have hposn : 0 < s.endpoints.card := Finset.card_pos.mpr hne
          have hle : (insert endpoint (s.blocked f)).card ≤ (s.blocked f).card + 1 :=
            Finset.card_insert_le _ _
          omega
        · simp only [Function.update_noteq hf]
          exact h.blockedCard f hne

lemma invariants_scheduleCommonF {s : Sched} (h : Invariants s) {t : TaskId}
    {endpoint : EndpointId} {eta : ℚ} (files : List Nat) (tn : Option Nat)
    (htr : (s.taskIdTranslation t).isSome)
    (hlen : (s.endpointsSentTo t).length ≤ s.maxBackups)
    (hnot : endpoint ∉ s.endpointsSentTo t) (hpos : 0 < eta) :
    Invariants (scheduleCommonF s t files endpoint eta tn) := by
  rw [scheduleCommonF_eq]
  refine ⟨h.pendSync, ?_, ?_, ?_, ?_, h.infoTrans, h.blockedSub, h.blockedCard⟩
  · intro e2 hne
    dsimp only at hne ⊢
    by_cases hf : files = []
    · rw [if_pos hf]
      by_cases he2 : e2 = endpoint
      · subst he2; rw [Function.update_same]; exact hpos
      · rw [Function.update_noteq he2]; exact h.etaPos e2 hne
    · rw [if_neg hf]; exact h.etaPos e2 hne
  · intro t2 htr2
    dsimp only at htr2 ⊢
    by_cases ht2 : t2 = t
    · subst ht2
      rw [htr2] at htr
      simp at htr
    · rw [Function.update_noteq ht2]
      exact h.freshEmpty t2 htr2
  · intro t2
    dsimp only
    by_cases ht2 : t2 = t
    · subst ht2
      rw [Function.update_same]
      simp only [List.length_append, List.length_singleton]
      omega
    · rw [Function.update_noteq ht2]; exact h.sentLen t2
  · intro t2
    dsimp only
    by_cases ht2 : t2 = t
    · subst ht2
      rw [Function.update_same]
      simp [List.nodup_append, h.sentNodup t2, hnot]
    · rw [Function.update_noteq ht2]; exact h.sentNodup t2

lemma invariants_scheduleNewF {s : Sched} (h : Invariants s) {t : TaskId}
    {func : FuncId} {payload headers : Nat} {files : List Nat}
    {endpoint : EndpointId} {eta now : ℚ} {tn : Option Nat}
    (hfresh : s.taskIdTranslation t = none) (hpos : 0 < eta) :
    Invariants (scheduleNewF s t func payload headers files endpoint eta now tn) := by
  unfold scheduleNewF
  have hsent : s.endpointsSentTo t = [] := h.freshEmpty t hfresh
  have hbase :
      Invariants
        { s with
          taskIdTranslation := Function.update s.taskIdTranslation t (some ∅)
          taskInfo := Function.update s.taskInfo t
            (some { function_id := func, payload := payload, headers := headers
                    files := files, time_requested := now }) } := by
    refine ⟨h.pendSync, h.etaPos, ?_, h.sentLen, h.sentNodup, ?_,
      h.blockedSub, h.blockedCard⟩
    · intro t2 htr2
      dsimp only at htr2 ⊢
      by_cases ht2 : t2 = t
      · subst ht2; rw [Function.update_same] at htr2; cases htr2
      · rw [Function.update_noteq ht2] at htr2
        exact h.freshEmpty t2 htr2
    · intro t2 hti2
      dsimp only at hti2 ⊢
      by_cases ht2 : t2 = t
      · subst ht2; rw [Function.update_same]; rfl
      · rw [Function.update_noteq ht2] at hti2 ⊢
        exact h.infoTrans t2 hti2
  refine invariants_scheduleCommonF hbase files tn ?_ ?_ ?_ hpos
  · dsimp only; rw [Function.update_same]; rfl
  · dsimp only; rw [hsent]; simp
  · dsimp only; rw [hsent]; simp

lemma invariants_scheduleBackupF {s : Sched} (h : Invariants s) {t : TaskId}
    {info : TaskInfo} {endpoint : EndpointId} {eta : ℚ} {tn : Option Nat}
    (hinfo : s.taskInfo t = some info)
    (hguard : (s.endpointsSentTo t).length ≤ s.maxBackups)
    (hnotSent : endpoint ∉ s.endpointsSentTo t) (hpos : 0 < eta) :
    Invariants (scheduleBackupF s t info endpoint eta tn) := by
  unfold scheduleBackupF
  refine invariants_scheduleCommonF h info.files tn ?_ hguard hnotSent hpos
  exact h.infoTrans t (by rw [hinfo]; rfl)

lemma invariants_submitF {s : Sched} (h : Invariants s) {t : TaskId}
    {info : TaskInfo} {endpoint : EndpointId} {tn : Option Nat} {r : RealId}
    {eta now : ℚ} {reliable : Bool} {realIds : Finset RealId}
    (htrans : s.taskIdTranslation t = some realIds) (hpos : 0 < eta) :
    Invariants (submitF s t info endpoint tn r eta now reliable) := by
  unfold submitF
  refine ⟨?_, ?_, ?_, h.sentLen, h.sentNodup, ?_, h.blockedSub, h.blockedCard⟩
  · intro p hp
    dsimp only at hp ⊢
    rcases List.mem_append.mp hp with hp | hp
    · have := h.pendSync p hp
      by_cases he2 : p.2.endpoint_id = endpoint
      · rw [he2, Function.update_same]
        exact Finset.mem_insert_of_mem (he2 ▸ this)
      · rw [Function.update_noteq he2]
        exact this
    · rcases List.mem_singleton.mp hp with rfl
      dsimp only
      rw [Function.update_same]
      exact Finset.mem_insert_self _ _
  · intro e2 hne
    dsimp only at hne ⊢
    by_cases he2 : e2 = endpoint
    · subst he2; rw [Function.update_same]; exact hpos
    · rw [Function.update_noteq he2] at hne ⊢
      exact h.etaPos e2 hne
  · intro t2 htr2
    dsimp only at htr2 ⊢
    by_cases ht2 : t2 = t
    · subst ht2
      rw [Function.update_same, htrans] at htr2
      cases htr2
    · rw [Function.update_noteq ht2] at htr2
      exact h.freshEmpty t2 htr2
  · intro t2 hti2
    dsimp only at hti2 ⊢
    by_cases ht2 : t2 = t
    · subst ht2
      rw [Function.update_same, htrans]
      rfl
    · rw [Function.update_noteq ht2]
      exact h.infoTrans t2 hti2

lemma invariants_recordCompletedF {s : Sched} (h : Invariants s) (r : RealId)
    (now : ℚ) : Invariants (recordCompletedF s r now) := by
  unfold recordCompletedF
  cases hpl : plookup s.pending r with
  | none => exact h
  | some info =>
    have hmem : (r, info) ∈ s.pending := plookup_mem hpl
    have hr : r ∈ s.pendingByEndpoint info.endpoint_id := h.pendSync _ hmem
    have hSync : ∀ p ∈ s.pending.filter (fun p => p.1 != r),
        p.1 ∈ (Function.update s.pendingByEndpoint info.endpoint_id
          ((s.pendingByEndpoint info.endpoint_id).erase r)) p.2.endpoint_id := by
      intro p hp
      rw [List.mem_filter] at hp
      obtain ⟨hpmem, hpne⟩ := hp
      have hpne2 : p.1 ≠ r := by simpa using hpne
      by_cases he2 : p.2.endpoint_id = info.endpoint_id
      · rw [he2, Function.update_same]
        exact Finset.mem_erase.mpr ⟨hpne2, he2 ▸ h.pendSync p hpmem⟩
      · rw [Function.update_noteq he2]
        exact h.pendSync p hpmem
    have hInfoTrans : ∀ t2, ((Function.update s.taskInfo info.task_id none) t2).isSome →
        (s.taskIdTranslation t2).isSome := by
      intro t2 hti2
      by_cases ht2 : t2 = info.task_id
      · subst ht2; rw [Function.update_same] at hti2; cases hti2
      · rw [Function.update_noteq ht2] at hti2
        exact h.infoTrans t2 hti2
    by_cases hcard : (s.pendingByEndpoint info.endpoint_id).card = 1
    · simp only [if_pos hcard]
      refine ⟨hSync, ?_, h.freshEmpty, h.sentLen, h.sentNodup, hInfoTrans,
        h.blockedSub, h.blockedCard⟩
      intro e2 hne
      dsimp only at hne ⊢
      by_cases he2 : e2 = info.endpoint_id
      · subst he2
        rw [Function.update_same] at hne
        obtain ⟨a, ha⟩ := Finset.card_eq_one.mp hcard
        rw [ha] at hr hne
        rcases Finset.mem_singleton.mp hr with rfl
        simp at hne
      · rw [Function.update_noteq he2] at hne ⊢
        exact h.etaPos e2 hne
    · simp only [if_neg hcard]
      refine ⟨hSync, ?_, h.freshEmpty, h.sentLen, h.sentNodup, hInfoTrans,
        h.blockedSub, h.blockedCard⟩
      intro e2 hne
      dsimp only at hne ⊢
      by_cases he2 : e2 = info.endpoint_id
      · subst he2
        rw [Function.update_same] at hne
        exact h.etaPos _ (hne.mono (Finset.erase_subset _ _))
      · rw [Function.update_noteq he2] at hne
        exact h.etaPos e2 hne

lemma invariants_logStatusF {s : Sched} (h : Invariants s) (r : RealId)
    (info : PendingInfo) (d : StatusData) (now : ℚ) :
    Invariants (logStatusF s r info d now) := by
  unfold logStatusF
  have h1 := invariants_stickyF h info.task_id d
  cases hres : d.hasResult with
  | true =>
    simp only [hres, if_true]
    exact invariants_recordCompletedF h1 r now
  | false =>
    simp only [hres, Bool.false_eq_true, if_false]
    cases hexc : d.hasException with
    | true =>
      simp only [hexc, if_true]
      cases hbe : d.blockError with
      | true =>
        simp only [hbe, if_true]
        exact invariants_recordCompletedF (invariants_blockF h1 _ _) r now
      | false =>
        simp only [hbe, Bool.false_eq_true, if_false]
        exact invariants_recordCompletedF h1 r now
    | false =>
      simp only [hexc, Bool.false_eq_true, if_false]
      exact h1

lemma invariants_step {s s2 : Sched} (h : Invariants s) (hstep : Step s s2) :
    Invariants s2 := by
  cases hstep with
  | scheduleNew t func payload headers files endpoint eta now tn hfresh hnb hns hpos =>
    exact invariants_scheduleNewF h hfresh hpos
  | scheduleBackup t info endpoint eta now threshold tn hcand hguard hinfo hnb hns hpos =>
    exact invariants_scheduleBackupF h hinfo hguard hns hpos
  | submit t info endpoint tn r eta now reliable realIds hq hinfo htrans hfresh hpos =>
    exact invariants_submitF h htrans hpos
  | dropScheduled t endpoint tn hq hnoInfo =>
    exact invariants_dropF h t endpoint tn
  | logStatus r info d now hpend =>
    exact invariants_logStatusF h r info d now
  | blockCall func endpoint =>
    exact invariants_blockF h func endpoint
  | markDead e he =>
    exact invariants_congr h _ rfl rfl rfl rfl rfl rfl rfl rfl rfl
  | markAlive e =>
    exact invariants_congr h _ rfl rfl rfl rfl rfl rfl rfl rfl rfl
  | setCold e hw =>
    exact invariants_congr h _ rfl rfl rfl rfl rfl rfl rfl rfl rfl
  | setWarm e hw =>
    exact invariants_congr h _ rfl rfl rfl rfl rfl rfl rfl rfl rfl

lemma reachable_invariants {s : Sched} (h : Reachable s) : Invariants s := by
  induction h with
  | init endpoints maxBackups => exact invariants_init endpoints maxBackups
  | step hr hstep ih => exact invariants_step ih hstep

/-! ### Claim C1: `cold_start` -/

/-- Claim C1, counterexample: on a WARM endpoint whose function requires a
package the endpoint has not imported, `cold_start` returns the predicted
per-package import time (here 5), not 0 as the claim states for every
non-COLD temperature. -/
theorem C1_counterexample :
    warmEnv.temperature 0 ≠ Temp.COLD ∧ cold_start warmEnv 0 0 ≠ 0 := by
  constructor
  · decide
  · norm_num [cold_start, warmEnv]

/-- Claim C1 (amended): `cold_start(endpoint, func)` always returns
`launch + Σ_{pkg ∈ imports_required[func] \ imports_present[endpoint]} import_predictor(pkg, endpoint)`,
where `launch` is the endpoint's configured launch time (0 when unconfigured)
if the temperature is COLD and 0 otherwise; the import-time sum is charged
regardless of temperature, so a non-COLD endpoint yields the import-time sum
rather than 0. -/
theorem C1_amended (env : ColdStartEnv) (endpoint : EndpointId) (func : FuncId) :
    cold_start env endpoint func =
      (if env.temperature endpoint = Temp.COLD then (env.launchTime endpoint).getD 0
        else 0) + importTimeSum env endpoint func := by
  unfold cold_start importTimeSum
  rw [coldStart_foldl_eq]
  by_cases ht : env.temperature endpoint = Temp.COLD
  · rw [if_neg (by simp [ht]), if_pos ht]
    cases hl : env.launchTime endpoint <;> simp [hl]
  · rw [if_pos ht, if_neg ht]
    simp

/-! ### Claim C6: the delay-based backup criterion -/

/-- Claim C6: a task id is collected by the delay loop of
`_send_backups_if_needed` exactly when some pending record for it has
`is_ETA_reliable = true` and `elapsed / expected > backup_delay_threshold`
with `expected = ETA - time_sent` and `elapsed = now - time_sent`; in
particular a record with `is_ETA_reliable = false` never triggers a
delay-based backup, however delayed. -/
theorem C6_delay_criterion (s : Sched) (now threshold : ℚ) (t : TaskId) :
    t ∈ delayCandidates s now threshold ↔
      ∃ p ∈ s.pending, p.2.task_id = t ∧ p.2.is_ETA_reliable = true ∧
        threshold < (now - p.2.time_sent) / (p.2.ETA - p.2.time_sent) := by
  simp only [delayCandidates, delayCriterion, List.mem_map, List.mem_filter,
    Bool.and_eq_true, decide_eq_true_eq]
  constructor
  · rintro ⟨p, ⟨hp, hrel, hlt⟩, rfl⟩
    exact ⟨p, hp, rfl, hrel, hlt⟩
  · rintro ⟨p, hp, rfl, hrel, hlt⟩
    exact ⟨p, ⟨hp, hrel, hlt⟩, rfl⟩

/-! ### Claim C10: `get_status` on an unknown client task id -/

/-- Claim C10: for a task id absent from the id-translation registry,
`get_status` warns and falls through, returning no status object at all
(`None`), not `\x7bstatus: PENDING\x7d` and not an error. -/
theorem C10_unknown_task_id (s : Sched) (task_id : TaskId)
    (h : s.taskIdTranslation task_id = none) : get_status s task_id = none := by
  unfold get_status
  rw [h]

/-- Witness for C10 at a concrete state: the freshly constructed scheduler
knows no task ids. -/
theorem C10_unknown_task_id_witness : get_status (initState ∅ 0) 0 = none :=
  C10_unknown_task_id (initState ∅ 0) 0 rfl

/-! ### Claim C8: failed HTTP submit retains all worker state -/

/-- Claim C8: when the `/submit` response is not JSON (`resp = none`) or its
JSON status is not `Success`, the worker `continue`s before any bookkeeping:
the shared scheduler state and the worker's `scheduled` map come back
unchanged — every record is retained for retry on the next tick, no real id
is registered in `pending`, and no `last_task_ETA` is updated. -/
theorem C8_failed_submit_retains (s : Sched) (scheduled : List (TaskId × WorkerRec))
    (ready : List TaskId) (resp : Option SubmitResponse)
    (etaOf : TaskId → ℚ) (reliableOf : TaskId → Bool) (now : ℚ)
    (hfail : ∀ res, resp = some res → res.status ≠ "Success") :
    submitTick s scheduled ready resp etaOf reliableOf now = (s, scheduled) := by
  unfold submitTick
  cases resp with
  | none => rfl
  | some res =>
    dsimp only
    rw [if_pos (hfail res rfl)]

/-- A worker record as staged for submission (used in witnesses). -/
def wrec0 : WorkerRec where
  function_id := 0
  payload := 0
  headers := 0
  files := []
  time_requested := 0
  endpoint_id := 0
  transfer_num := none
  transfer_time := 0

/-- Witness for C8: a concrete tick holding one ready task receives a
`Failed` JSON response and changes nothing. -/
theorem C8_failed_submit_retains_witness :
    submitTick (initState {0} 0) [(5, wrec0)] [5]
        (some { status := "Failed", task_uuids := [9] })
        (fun _ => 1) (fun _ => false) 2
      = (initState {0} 0, [(5, wrec0)]) :=
  C8_failed_submit_retains _ _ _ _ _ _ _
    (fun res h => by cases h; decide)

/-! ### Claim C5: `block` -/

/-- The reachable state with endpoints `\x7b0, 1\x7d` in which endpoint 0 is
already blocked for function 0. -/
def sC5 : Sched := (blockF (initState {0, 1} 0) 0 0).1

/-- Claim C5, counterexample: in the reachable state `sC5`, endpoint 0 is a
known endpoint and re-blocking it would still leave endpoint 1 viable for
function 0, so the claim demands Success; but the code compares
`len(blocked[func])` with `len(endpoints) - 1` without checking membership
and returns Failed, leaving the set unchanged. -/
theorem C5_counterexample :
    Reachable sC5 ∧ 0 ∈ sC5.endpoints ∧
      (sC5.endpoints \ insert 0 (sC5.blocked 0)).Nonempty ∧
      (blockF sC5 0 0).2 = "Failed" ∧ (blockF sC5 0 0).1 = sC5 := by
  refine ⟨?_, by decide, by decide, by decide, ?_⟩
  · exact Reachable.step (Reachable.init {0, 1} 0) (Step.blockCall _ 0 0)
  · unfold blockF
    rw [if_neg (by decide), if_pos (by decide)]

/-- Claim C5 (amended): `block(func, endpoint)` fails (returning a Failed
status and leaving the state unchanged) exactly when the endpoint is unknown
or `|blocked[func]| = |endpoints| - 1` — the size guard fires even when the
endpoint is already blocked, in which case no viable endpoint would actually
be lost; in every other case it inserts the endpoint into `blocked[func]` and
returns Success.  Consequently `|blocked[func]| < |endpoints|` holds in every
reachable state of a scheduler constructed with at least one endpoint. -/
theorem C5_amended :
    (∀ (s : Sched) (func : FuncId) (endpoint : EndpointId),
      ((blockF s func endpoint).2 = "Failed" ↔
        endpoint ∉ s.endpoints ∨ (s.blocked func).card = s.endpoints.card - 1) ∧
      ((blockF s func endpoint).2 = "Failed" → (blockF s func endpoint).1 = s) ∧
      ((blockF s func endpoint).2 = "Success" →
        (blockF s func endpoint).1.blocked func = insert endpoint (s.blocked func))) ∧
    (∀ s : Sched, Reachable s → s.endpoints.Nonempty →
      ∀ func, (s.blocked func).card < s.endpoints.card) := by
  constructor
  · intro s func endpoint
    unfold blockF
    by_cases hunk : endpoint ∉ s.endpoints
    · rw [if_pos hunk]
      dsimp only
      exact ⟨iff_of_true rfl (Or.inl hunk), fun _ => rfl, fun h => absurd h (by decide)⟩
    · rw [if_neg hunk]
      by_cases hlast : (s.blocked func).card = s.endpoints.card - 1
      · rw [if_pos hlast]
        dsimp only
        exact ⟨iff_of_true rfl (Or.inr hlast), fun _ => rfl, fun h => absurd h (by decide)⟩
      · rw [if_neg hlast]
        dsimp only
        refine ⟨iff_of_false (by decide) (not_or.mpr ⟨hunk, hlast⟩), ?_, ?_⟩
        · intro h; exact absurd h (by decide)
        · intro _
          exact Function.update_same func _ _
  · intro s hr hne func
    exact (reachable_invariants hr).blockedCard func hne

/-- Witness for C5 at concrete inputs: blocking an unknown endpoint fails,
and a freshly constructed single-endpoint scheduler satisfies the block-set
bound. -/
theorem C5_amended_witness :
    (blockF (initState ({0} : Finset EndpointId) 0) 0 1).2 = "Failed" ∧
      ((initState ({0} : Finset EndpointId) 0).blocked 0).card <
        (initState ({0} : Finset EndpointId) 0).endpoints.card :=
  ⟨(C5_amended.1 (initState {0} 0) 0 1).1.mpr (Or.inl (by decide)),
    C5_amended.2 (initState {0} 0) (Reachable.init _ _) (by decide) 0⟩

/-! ### Claim C2: the `pending_by_endpoint` / `last_task_ETA` biconditional -/

/-- The reachable state right after a zero-file task is scheduled to
endpoint 0 with predicted ETA 10, before its HTTP submission. -/
def sC2 : Sched := scheduleNewF (initState {0, 1} 0) 0 0 0 0 [] 0 10 0 none

lemma reachable_sC2 : Reachable sC2 :=
  Reachable.step (Reachable.init {0, 1} 0)
    (Step.scheduleNew _ 0 0 0 0 [] 0 10 0 none rfl (by decide) (by decide) (by decide))

/-- Claim C2, counterexample: in the reachable state `sC2` — between a
zero-file task being scheduled and its HTTP submission, exactly the window
in which the claim asserts the biconditional — `pending_by_endpoint[0]` is
empty while `last_task_ETA[0] = 10 ≠ 0`, because `_schedule_task` records
the ETA eagerly for zero-file tasks (lines 214-218). -/
theorem C2_counterexample :
    Reachable sC2 ∧ sC2.pendingByEndpoint 0 = ∅ ∧ sC2.lastTaskETA 0 ≠ 0 ∧
      sC2.scheduledQueue = [(0, 0, none)] :=
  ⟨reachable_sC2, by decide, by decide, by decide⟩

/-- Claim C2 (amended): only the right-to-left direction of the biconditional
holds at every reachable state: if `last_task_ETA[e] = 0` and
`queue_error[e] = 0` then `pending_by_endpoint[e]` is empty.  The
left-to-right direction fails precisely in the window between a zero-file
task being scheduled and its HTTP submission, where the eagerly recorded
`last_task_ETA[e]` is nonzero while `pending_by_endpoint[e]` is still
empty. -/
theorem C2_amended (s : Sched) (e : EndpointId) (h : Reachable s)
    (heta : s.lastTaskETA e = 0) (herr : s.queueError e = 0) :
    s.pendingByEndpoint e = ∅ := by
  by_contra hne
  have hnonempty : (s.pendingByEndpoint e).Nonempty :=
    Finset.nonempty_iff_ne_empty.mpr hne
  have hpos := (reachable_invariants h).etaPos e hnonempty
  rw [heta] at hpos
  exact lt_irrefl 0 hpos

/-- Witness for C2 at a concrete state. -/
theorem C2_amended_witness :
    (initState ({0} : Finset EndpointId) 0).pendingByEndpoint 0 = ∅ :=
  C2_amended (initState {0} 0) 0 (Reachable.init _ _) rfl rfl

/-! ### Claim C4: no second dispatch under `max_backups = 0` -/

/-- Claim C4: with `max_backups = 0`, `endpoints_sent_to[task_id]` never
exceeds one entry at any reachable state — the guard on line 527 compares
`len(endpoints_sent_to[task_id])` with `max_backups`, and every task the
backup evaluator considers has already been dispatched once, so
`schedule_task` is never re-invoked for an existing id. -/
theorem C4_no_second_dispatch (s : Sched) (h : Reachable s)
    (hmb : s.maxBackups = 0) (t : TaskId) :
    (s.endpointsSentTo t).length ≤ 1 := by
  have hlen := (reachable_invariants h).sentLen t
  omega

/-- Witness for C4 at a concrete state. -/
theorem C4_no_second_dispatch_witness :
    ((initState ({0} : Finset EndpointId) 0).endpointsSentTo 3).length ≤ 1 :=
  C4_no_second_dispatch (initState {0} 0) (Reachable.init _ _) rfl 3

/-! ### Claim C7: `endpoints_sent_to` vs `blocked` -/

/-- The exception status message whose deserialized kind is a blocking error
(`ModuleNotFoundError` / `MemoryError`). -/
def excBlockD : StatusData where
  hasResult := false
  hasException := true
  statusField := none
  body := 0
  blockError := true

/-- `sC2` after the HTTP submission of task 0 to endpoint 0 assigned real
id 100. -/
def sC7mid : Sched :=
  submitF sC2 0
    { function_id := 0, payload := 0, headers := 0, files := [], time_requested := 0 }
    0 none 100 11 1 false

/-- After scheduling and submitting task 0 to endpoint 0, the executor
reports a blocking exception from endpoint 0: `log_status` calls
`block(0, 0)`, which succeeds because endpoint 1 is still viable. -/
def sC7 : Sched :=
  logStatusF sC7mid 100
    { task_id := 0, function_id := 0, endpoint_id := 0, ETA := 11, time_sent := 1
      is_ETA_reliable := false }
    excBlockD 5

lemma reachable_sC7 : Reachable sC7 :=
  Reachable.step
    (Reachable.step reachable_sC2
      (Step.submit sC2 0
        { function_id := 0, payload := 0, headers := 0, files := [], time_requested := 0 }
        0 none 100 11 1 false ∅ (by decide) (by decide) (by decide) (by decide) (by decide)))
    (Step.logStatus sC7mid 100
      { task_id := 0, function_id := 0, endpoint_id := 0, ETA := 11, time_sent := 1
        is_ETA_reliable := false }
      excBlockD 5 (by decide))

/-- Claim C7, counterexample: in the reachable state `sC7`, endpoint 0 is in
`blocked[0]` (blocked after a blocking exception from the very endpoint the
task ran on) and simultaneously in `endpoints_sent_to[0]`; the claimed
invariant "no endpoint of `endpoints_sent_to[task_id]` is in `blocked[func]`"
is violated, because `block` can run after dispatch. -/
theorem C7_counterexample :
    Reachable sC7 ∧ 0 ∈ sC7.blocked 0 ∧ 0 ∈ sC7.endpointsSentTo 0 :=
  ⟨reachable_sC7, by decide, by decide⟩

/-- Claim C7 (amended): `endpoints_sent_to[task_id]` never contains duplicate
endpoints, because each `_schedule_task` call passes the strategy the
exclusion set `blocked[func] ∪ endpoints_sent_to[task_id]` at decision time
(lines 196-200); but an endpoint already in `endpoints_sent_to[task_id]` can
later enter `blocked[func]`, so the no-blocked-entries half of the claimed
invariant does not hold at every reachable state. -/
theorem C7_amended (s : Sched) (h : Reachable s) (t : TaskId) :
    (s.endpointsSentTo t).Nodup :=
  (reachable_invariants h).sentNodup t

/-- Witness for C7 at a concrete state. -/
theorem C7_amended_witness :
    ((initState ({0} : Finset EndpointId) 0).endpointsSentTo 3).Nodup :=
  C7_amended (initState {0} 0) (Reachable.init _ _) 3

/-! ### Claim C3: sticky status

`_latest_status` is written only by the sticky write in `log_status`, and
`_task_id_translation` entries are only created (fresh ids) or enlarged
(successful submissions); no step deletes either.  Hence once `get_status`
has produced a non-PENDING value, it keeps producing that same value. -/

lemma blockF_latestStatus (s : Sched) (func : FuncId) (endpoint : EndpointId) :
    (blockF s func endpoint).1.latestStatus = s.latestStatus := by
  unfold blockF
  split_ifs <;> rfl

lemma blockF_taskIdTranslation (s : Sched) (func : FuncId) (endpoint : EndpointId) :
    (blockF s func endpoint).1.taskIdTranslation = s.taskIdTranslation := by
  unfold blockF
  split_ifs <;> rfl

lemma recordCompletedF_latestStatus (s : Sched) (r : RealId) (now : ℚ) :
    (recordCompletedF s r now).latestStatus = s.latestStatus := by
  unfold recordCompletedF
  cases plookup s.pending r with
  | none => rfl
  | some info =>
    dsimp only
    split_ifs <;> rfl

lemma recordCompletedF_taskIdTranslation (s : Sched) (r : RealId) (now : ℚ) :
    (recordCompletedF s r now).taskIdTranslation = s.taskIdTranslation := by
  unfold recordCompletedF
  cases plookup s.pending r with
  | none => rfl
  | some info =>
    dsimp only
    split_ifs <;> rfl

lemma stickyF_taskIdTranslation (s : Sched) (t : TaskId) (d : StatusData) :
    (stickyF s t d).taskIdTranslation = s.taskIdTranslation := by
  unfold stickyF
  split_ifs <;> rfl

lemma stickyF_latestStatus_of_terminal {s : Sched} {t : TaskId} {d : StatusData}
    (h : s.latestStatus t = some d) (hnp : d.statusField ≠ some "PENDING")
    (t2 : TaskId) (d2 : StatusData) :
    (stickyF s t2 d2).latestStatus t = some d := by
  unfold stickyF
  split_ifs with hterm
  · exact h
  · dsimp only
    by_cases ht2 : t = t2
    · subst ht2
      rw [h] at hterm
      have hpend2 : d.statusField = some "PENDING" := by
        simpa [isTerminal] using hterm
      exact absurd hpend2 hnp
    · rw [Function.update_noteq ht2]
      exact h

lemma scheduleCommonF_latestStatus (s : Sched) (t : TaskId) (files : List Nat)
    (endpoint : EndpointId) (eta : ℚ) (tn : Option Nat) :
    (scheduleCommonF s t files endpoint eta tn).latestStatus = s.latestStatus := by
  rw [scheduleCommonF_eq]

lemma scheduleCommonF_taskIdTranslation (s : Sched) (t : TaskId) (files : List Nat)
    (endpoint : EndpointId) (eta : ℚ) (tn : Option Nat) :
    (scheduleCommonF s t files endpoint eta tn).taskIdTranslation = s.taskIdTranslation := by
  rw [scheduleCommonF_eq]

lemma logStatusF_latestStatus_of_terminal {s : Sched} {t : TaskId} {d : StatusData}
    (h : s.latestStatus t = some d) (hnp : d.statusField ≠ some "PENDING")
    (r : RealId) (info : PendingInfo) (d2 : StatusData) (now : ℚ) :
    (logStatusF s r info d2 now).latestStatus t = some d := by
  unfold logStatusF
  have hsticky := stickyF_latestStatus_of_terminal h hnp info.task_id d2
  split_ifs <;>
    simp only [recordCompletedF_latestStatus, blockF_latestStatus, hsticky]

lemma logStatusF_taskIdTranslation (s : Sched) (r : RealId) (info : PendingInfo)
    (d : StatusData) (now : ℚ) :
    (logStatusF s r info d now).taskIdTranslation = s.taskIdTranslation := by
  unfold logStatusF
  split_ifs <;>
    simp only [recordCompletedF_taskIdTranslation, blockF_taskIdTranslation,
      stickyF_taskIdTranslation]

/-- Across any single step, a translation entry only grows. -/
lemma step_translation_mono {s s2 : Sched} (hstep : Step s s2) (t : TaskId)
    (realIds : Finset RealId) (h : s.taskIdTranslation t = some realIds) :
    ∃ realIds2, s2.taskIdTranslation t = some realIds2 ∧ realIds ⊆ realIds2 := by
  cases hstep with
  | scheduleNew t0 func payload headers files endpoint eta now tn hfresh hnb hns hpos =>
    unfold scheduleNewF
    rw [scheduleCommonF_taskIdTranslation]
    dsimp only
    by_cases ht0 : t = t0
    · subst ht0; rw [h] at hfresh; cases hfresh
    · rw [Function.update_noteq ht0]
      exact ⟨realIds, h, Finset.Subset.refl _⟩
  | scheduleBackup t0 info endpoint eta now threshold tn hcand hguard hinfo hnb hns hpos =>
    unfold scheduleBackupF
    rw [scheduleCommonF_taskIdTranslation]
    exact ⟨realIds, h, Finset.Subset.refl _⟩
  | submit t0 info endpoint tn r eta now reliable realIds0 hq hinfo htrans hfresh hpos =>
    unfold submitF
    dsimp only
    by_cases ht0 : t = t0
    · subst ht0
      rw [Function.update_same, h]
      exact ⟨insert r realIds, rfl, Finset.subset_insert r realIds⟩
    · rw [Function.update_noteq ht0]
      exact ⟨realIds, h, Finset.Subset.refl _⟩
  | dropScheduled t0 endpoint tn hq hnoInfo =>
    exact ⟨realIds, h, Finset.Subset.refl _⟩
  | logStatus r info d now hpend =>
    rw [logStatusF_taskIdTranslation]
    exact ⟨realIds, h, Finset.Subset.refl _⟩
  | blockCall func endpoint =>
    rw [blockF_taskIdTranslation]
    exact ⟨realIds, h, Finset.Subset.refl _⟩
  | markDead e he => exact ⟨realIds, h, Finset.Subset.refl _⟩
  | markAlive e => exact ⟨realIds, h, Finset.Subset.refl _⟩
  | setCold e hw => exact ⟨realIds, h, Finset.Subset.refl _⟩
  | setWarm e hw => exact ⟨realIds, h, Finset.Subset.refl _⟩

/-- Across any single step, a terminal `_latest_status` entry is frozen. -/
lemma step_latest_frozen {s s2 : Sched} (hstep : Step s s2) (t : TaskId)
    (d : StatusData) (h : s.latestStatus t = some d)
    (hnp : d.statusField ≠ some "PENDING") : s2.latestStatus t = some d := by
  cases hstep with
  | scheduleNew t0 func payload headers files endpoint eta now tn hfresh hnb hns hpos =>
    unfold scheduleNewF
    rw [scheduleCommonF_latestStatus]
    exact h
  | scheduleBackup t0 info endpoint eta now threshold tn hcand hguard hinfo hnb hns hpos =>
    unfold scheduleBackupF
    rw [scheduleCommonF_latestStatus]
    exact h
  | submit t0 info endpoint tn r eta now reliable realIds0 hq hinfo htrans hfresh hpos =>
    exact h
  | dropScheduled t0 endpoint tn hq hnoInfo => exact h
  | logStatus r info d2 now hpend =>
    exact logStatusF_latestStatus_of_terminal h hnp r info d2 now
  | blockCall func endpoint =>
    rw [blockF_latestStatus]
    exact h
  | markDead e he => exact h
  | markAlive e => exact h
  | setCold e hw => exact h
  | setWarm e hw => exact h

lemma get_status_terminal_inv {s : Sched} {t : TaskId} {d : StatusData}
    (h : get_status s t = some d) (hnp : d.statusField ≠ some "PENDING") :
    ∃ realIds, s.taskIdTranslation t = some realIds ∧ realIds ≠ ∅ ∧
      s.latestStatus t = some d := by
  unfold get_status at h
  cases htr : s.taskIdTranslation t with
  | none => rw [htr] at h; cases h
  | some realIds =>
    simp only [htr] at h
    by_cases hempty : realIds = ∅
    · rw [if_pos hempty] at h
      have : d = pendingStatus := by
        injection h with h2
        exact h2.symm
      rw [this] at hnp
      exact absurd rfl hnp
    · rw [if_neg hempty] at h
      cases hls : s.latestStatus t with
      | none =>
        rw [hls] at h
        have : d = pendingStatus := by
          injection h with h2
          exact h2.symm
        rw [this] at hnp
        exact absurd rfl hnp
      | some d2 =>
        rw [hls] at h
        injection h with h2
        exact ⟨realIds, rfl, hempty, by rw [h2]⟩

lemma get_status_sticky_step {s s2 : Sched} (hstep : Step s s2) {t : TaskId}
    {d : StatusData} (h : get_status s t = some d)
    (hnp : d.statusField ≠ some "PENDING") : get_status s2 t = some d := by
  obtain ⟨realIds, htr, hempty, hls⟩ := get_status_terminal_inv h hnp
  obtain ⟨realIds2, htr2, hsub⟩ := step_translation_mono hstep t realIds htr
  have hls2 := step_latest_frozen hstep t d hls hnp
  have hempty2 : realIds2 ≠ ∅ := by
    intro hcon
    apply hempty
    rw [hcon] at hsub
    exact Finset.subset_empty.mp hsub
  unfold get_status
  simp only [htr2]
  rw [if_neg hempty2]
  simp only [hls2]

/-- Claim C3: once `get_status(task_id)` has returned a non-PENDING value,
no later state reached by any sequence of scheduler steps makes it return
PENDING again — indeed it keeps returning the very same value, because the
sticky write in `log_status` (lines 244-247) refuses to overwrite a recorded
non-PENDING status and translation entries are never removed. -/
theorem C3_sticky (s s2 : Sched) (t : TaskId) (d : StatusData)
    (hsteps : StepStar s s2) (h : get_status s t = some d)
    (hnp : d.statusField ≠ some "PENDING") : get_status s2 t = some d := by
  induction hsteps with
  | refl => exact h
  | tail hpre hstep ih => exact get_status_sticky_step hstep ih hnp

/-- A recorded non-PENDING result status (used in witnesses). -/
def resD : StatusData where
  hasResult := true
  hasException := false
  statusField := none
  body := 3
  blockError := false

/-- A state in which task 1 already has the terminal status `resD` and a
pending real id 5. -/
def sC3 : Sched :=
  { initState ({0} : Finset EndpointId) 0 with
    taskIdTranslation := Function.update (fun _ => none) 1 (some {5})
    latestStatus := Function.update (fun _ => none) 1 (some resD)
    pending := [(5, { task_id := 1, function_id := 0, endpoint_id := 0, ETA := 11
                      time_sent := 1, is_ETA_reliable := true })]
    pendingByEndpoint := Function.update (fun _ => ∅) 0 {5} }

/-- Witness for C3: a late `\x7bstatus: PENDING\x7d` callback for real id 5
does not make `get_status` regress. -/
theorem C3_sticky_witness :
    get_status
      (logStatusF sC3 5
        { task_id := 1, function_id := 0, endpoint_id := 0, ETA := 11
          time_sent := 1, is_ETA_reliable := true }
        pendingStatus 7) 1 = some resD :=
  C3_sticky sC3 _ 1 resD
    (StepStar.tail (StepStar.refl sC3)
      (Step.logStatus sC3 5
        { task_id := 1, function_id := 0, endpoint_id := 0, ETA := 11
          time_sent := 1, is_ETA_reliable := true }
        pendingStatus 7 (by decide)))
    (by decide) (by decide)

/-! ### Claim C9: `task_info` lookup in the backup evaluator

Only the dead-endpoint comprehension (lines 506-511) filters on membership
in `self._task_info`; the delay loop (lines 515-524) does not.  A task id
whose `task_info` was deleted by `_record_completed` (first completion wins,
line 328-329) can therefore still be selected through a delayed sibling real
id, and the lookup `self._task_info[task_id]` on line 531 then raises
`KeyError`.  The trace below reaches such a state with `max_backups = 2`. -/

/-- Schedule task 0 (zero files) to endpoint 0 on a two-endpoint scheduler
with `max_backups = 2`. -/
def sC9a : Sched := scheduleNewF (initState {0, 1} 2) 0 0 0 0 [] 0 10 0 none

/-- Submit it; the executor assigns real id 100 (ETA 11, reliable). -/
def sC9b : Sched :=
  submitF sC9a 0
    { function_id := 0, payload := 0, headers := 0, files := [], time_requested := 0 }
    0 none 100 11 1 true

/-- At time 30 the delay criterion fires (elapsed 29 over expected 10), so a
backup of task 0 is scheduled to endpoint 1. -/
def sC9c : Sched :=
  scheduleBackupF sC9b 0
    { function_id := 0, payload := 0, headers := 0, files := [], time_requested := 0 }
    1 12 none

/-- The backup is submitted as real id 101 (ETA 50, sent at 31, reliable). -/
def sC9d : Sched :=
  submitF sC9c 0
    { function_id := 0, payload := 0, headers := 0, files := [], time_requested := 0 }
    1 none 101 50 31 true

/-- Real id 100 returns a result at time 60: `_record_completed` deletes
`task_info[0]` while real id 101 stays pending on endpoint 1. -/
def sC9e : Sched :=
  logStatusF sC9d 100
    { task_id := 0, function_id := 0, endpoint_id := 0, ETA := 11, time_sent := 1
      is_ETA_reliable := true }
    resD 60

lemma sC9b_pending :
    sC9b.pending = [(100, { task_id := 0, function_id := 0, endpoint_id := 0
                            ETA := 11, time_sent := 1, is_ETA_reliable := true })] := by
  decide

lemma sC9b_delay : 0 ∈ delayCandidates sC9b 30 2 := by
  unfold delayCandidates
  rw [sC9b_pending]
  have hcrit : delayCriterion
      { task_id := 0, function_id := 0, endpoint_id := 0, ETA := 11, time_sent := 1
        is_ETA_reliable := true } 30 2 = true := by
    unfold delayCriterion
    norm_num
  simp [List.filter_cons, hcrit]

lemma reachable_sC9e : Reachable sC9e :=
  Reachable.step
    (Reachable.step
      (Reachable.step
        (Reachable.step
          (Reachable.step (Reachable.init {0, 1} 2)
            (Step.scheduleNew (initState {0, 1} 2) 0 0 0 0 [] 0 10 0 none rfl
              (by decide) (by decide) (by decide)))
          (Step.submit sC9a 0
            { function_id := 0, payload := 0, headers := 0, files := []
              time_requested := 0 }
            0 none 100 11 1 true ∅ (by decide) (by decide) (by decide) (by decide)
            (by decide)))
        (Step.scheduleBackup sC9b 0
          { function_id := 0, payload := 0, headers := 0, files := []
            time_requested := 0 }
          1 12 30 2 none
          (by unfold backupCandidates; exact List.mem_append_right _ sC9b_delay)
          (by decide) (by decide) (by decide) (by decide) (by decide)))
      (Step.submit sC9c 0
        { function_id := 0, payload := 0, headers := 0, files := []
          time_requested := 0 }
        1 none 101 50 31 true {100} (by decide) (by decide) (by decide) (by decide)
        (by decide)))
    (Step.logStatus sC9d 100
      { task_id := 0, function_id := 0, endpoint_id := 0, ETA := 11, time_sent := 1
        is_ETA_reliable := true }
      resD 60 (by decide))

lemma sC9e_pending :
    sC9e.pending = [(101, { task_id := 0, function_id := 0, endpoint_id := 1
                            ETA := 50, time_sent := 31, is_ETA_reliable := true })] := by
  decide

lemma sC9e_delay : 0 ∈ delayCandidates sC9e 200 2 := by
  unfold delayCandidates
  rw [sC9e_pending]
  have hcrit : delayCriterion
      { task_id := 0, function_id := 0, endpoint_id := 1, ETA := 50, time_sent := 31
        is_ETA_reliable := true } 200 2 = true := by
    unfold delayCriterion
    norm_num
  simp [List.filter_cons, hcrit]

/-- Claim C9: refuted by the code — in the reachable state `sC9e`, at time
200 the delay criterion selects task 0 (via its still-pending sibling real
id 101), the `max_backups` guard passes (2 endpoints dispatched, limit 2),
and yet `task_info` has no entry for task 0: the lookup
`self._task_info[task_id]` on line 531 would raise `KeyError`. -/
theorem C9_taskinfo_lookup_fails :
    Reachable sC9e ∧ 0 ∈ delayCandidates sC9e 200 2 ∧
      (sC9e.endpointsSentTo 0).length ≤ sC9e.maxBackups ∧
      sC9e.taskInfo 0 = none :=
  ⟨reachable_sC9e, sC9e_delay, by decide, by decide⟩

end Scheduler
